import Mathlib

/-!
Verification development for the medium-stats-example repository.

The repository core is `utils.py` (preprocess_data, generate_data,
compute_scaling_vars_for_numerical_cols, parse_data) and the presenter
callback `callback_size_nodes` in `app.py`.  Source functions are embedded
shallowly below, keeping their names.

Modelling conventions, applied uniformly:
* A pandas dataframe of topic records is a `List TopicRow`; numeric cells are
  rationals (the JSON numbers; exact arithmetic).  Floating point rounding is
  outside the model.
* pandas and numpy library primitives are modelled by their documented
  value-level semantics: `Series.drop_duplicates` removes duplicate values
  keeping the first occurrence; `DataFrame.explode` turns a row whose list
  column is empty into a single row with a missing value (`none` below, the
  model of NaN); `df.loc[mask]` keeps the original row order;
  `Series.item` raises unless exactly one element is selected;
  `DataFrame.sort_values(ascending=False)` is implemented by pandas
  (`nargsort`) as an ascending argsort whose index array is then reversed,
  and the ascending argsort is stable for the small arrays where numpy
  quicksort reduces to insertion sort, so descending sorting is modelled as
  the reverse of a stable ascending insertion sort.  Interpreter-level
  restrictions of a particular pandas build (such as the hashability of the
  row sets handed to drop_duplicates) are below the abstraction level of
  this value model.
* A Python `set` built from a two-column row is an unordered pair.  Python
  iterates sets in an unspecified, hash-dependent order, so the model fixes
  a canonical enumeration (`mkPair`); every claim about edges is stated so
  that it does not depend on the orientation.
* Code paths that raise in Python (unpacking the column iterator of an
  empty or degenerate edge frame, `Series.item` on several rows, a division
  whose denominator is zero) are modelled as an explicit error result.
* `config.py` is not part of the supplied sources.  Modelled from the spec:
  the configuration constants MIN_NODE_SIZE, MAX_NODE_SIZE and
  DEFAULT_NODE_SIZE are numeric and presenter-visible, so they appear as
  explicit rational parameters of the embedded functions.
-/

/-- Walks a list keeping every value not seen before; `seen` carries the
values already emitted. -/
def dropDupsFirstAux {α : Type} [DecidableEq α] (seen : List α) :
    List α → List α
  | [] => []
  | a :: l =>
    if a ∈ seen then dropDupsFirstAux seen l
    else a :: dropDupsFirstAux (a :: seen) l

/-- Removes duplicates from a list keeping the first occurrence of every
value; the model of pandas drop_duplicates and of building a Python set
from a list of values. -/
def dropDupsFirst {α : Type} [DecidableEq α] (l : List α) : List α :=
  dropDupsFirstAux [] l

instance {ε α : Type} [DecidableEq ε] [DecidableEq α] :
    DecidableEq (Except ε α) := fun x y =>
  match x, y with
  | .error a, .error b =>
    if h : a = b then isTrue (by rw [h])
    else isFalse (fun hh => h (by cases hh; rfl))
  | .ok a, .ok b =>
    if h : a = b then isTrue (by rw [h])
    else isFalse (fun hh => h (by cases hh; rfl))
  | .error _, .ok _ => isFalse (fun hh => by cases hh)
  | .ok _, .error _ => isFalse (fun hh => by cases hh)

/-- `re.sub("[^0-9a-zA-Z]+", " ", s)` maps every character outside the ASCII
alphanumeric range to a space (runs collapse separately); `.lower()` then
lowercases the surviving ASCII letters. -/
def cleanChar (c : Char) : Char :=
  if c.isAlpha || c.isDigit then c.toLower else ' '

/-- Collapses every run of consecutive spaces to a single space: the effect
of replacing each maximal run of non-alphanumerics by one space. -/
def squeeze : List Char → List Char
  | [] => []
  | c :: cs =>
    match squeeze cs with
    | [] => [c]
    | d :: ds => if c = ' ' ∧ d = ' ' then d :: ds else c :: d :: ds

/-- Python `str.strip()`: after the substitution the only whitespace left is
the plain space, so stripping removes leading and trailing spaces. -/
def stripSpaces (l : List Char) : List Char :=
  ((l.dropWhile (fun c => c = ' ')).reverse.dropWhile (fun c => c = ' ')).reverse

/-- The normalisation `generate_data` applies to the query and to every topic
name: replace every run of non-alphanumerics with one space, lowercase,
strip. -/
def cleanName (s : String) : String :=
  String.mk (stripSpaces (squeeze (s.data.map cleanChar)))

/-- One record of the input dataset (datasets/medium_topics.json): columns
topic, stories, writers, related_topics. -/
structure TopicRow where
  topic : String
  stories : ℚ
  writers : ℚ
  related_topics : List String
deriving DecidableEq, Inhabited

/-- One row of the node table produced by `generate_data`: the dataset row
with related_topics dropped and topic renamed to id. -/
structure NodeRow where
  id : String
  stories : ℚ
  writers : ℚ
deriving DecidableEq, Inhabited

/-- Result of `generate_data`: the `(None, None)` pair, a raised exception,
or an edge table plus node table.  An edge is the Python set built from one
exploded row, enumerated canonically; its first element is the `from` cell
and its second element (NaN, i.e. `none`, when the set is a singleton) is
the `to` cell. -/
inductive GenResult where
  | nullPair
  | error
  | graph (edges : List (List (Option String))) (nodes : List NodeRow)
deriving DecidableEq, Inhabited

/-- Lexicographic comparison of character lists, used only to pick the
canonical enumeration of a modelled Python set. -/
def strLeb : List Char → List Char → Bool
  | [], _ => true
  | _ :: _, [] => false
  | a :: as, b :: bs => if a = b then strLeb as bs else decide (a < b)

/-- Canonical enumeration order for the model of a Python set of optional
strings (Python iterates sets in an unspecified order; claims never depend
on this choice). -/
def ovLE : Option String → Option String → Bool
  | none, _ => true
  | some _, none => false
  | some a, some b => strLeb a.data b.data

/-- The Python set `{topic, related}` built from one exploded row by
`.apply(set, axis=1)`, as its canonical enumeration.  It is a singleton
exactly when the row relates the topic to itself. -/
def mkPair (t : String) (r : Option String) : List (Option String) :=
  if r = some t then [some t]
  else if ovLE (some t) r then [some t, r] else [r, some t]

/-- `.explode(column="related_topics")` on one row: one output row per
related topic, and a single row with a NaN related cell when the list is
empty; each exploded row is then turned into its set. -/
def explodeRow (row : TopicRow) : List (List (Option String)) :=
  match row.related_topics with
  | [] => [mkPair row.topic none]
  | rs => rs.map fun x => mkPair row.topic (some x)

/-- The rows of the dataset whose normalised topic equals the normalised
query (the mask `clean_topics == clean_selected_topic`). -/
def matchesFor (df : List TopicRow) (q : String) : List TopicRow :=
  df.filter fun r => cleanName r.topic = cleanName q

/-- `df["topic"].isin(related_topics + [selected_topic])`: note that the raw
query string is used here, not the name of the matched topic. -/
def egoFilter (df : List TopicRow) (T : TopicRow) (q : String) : List TopicRow :=
  df.filter fun r => r.topic ∈ T.related_topics ++ [q]

/-- All row sets produced by exploding the filtered rows, in order. -/
def rawPairs (df : List TopicRow) (T : TopicRow) (q : String) :
    List (List (Option String)) :=
  (egoFilter df T q).flatMap explodeRow

/-- `df_graph`: the exploded row sets with duplicate sets removed
(drop_duplicates keeps the first occurrence).  These are the rows of the
edge table. -/
def graphEdges (df : List TopicRow) (T : TopicRow) (q : String) :
    List (List (Option String)) :=
  dropDupsFirst (rawPairs df T q)

/-- `set.union(*df_graph)` followed by
`df.loc[df["topic"].isin(nodes)].drop(...).rename({"topic": "id"})`:
the dataset rows, in their original order, whose topic occurs in some edge
set. -/
def nodeTable (df : List TopicRow) (pairs : List (List (Option String))) :
    List NodeRow :=
  (df.filter fun r => some r.topic ∈ pairs.flatten).map
    fun r => ⟨r.topic, r.stories, r.writers⟩

/-- The `from` column entry of an edge row. -/
def edgeFrom (e : List (Option String)) : Option String := e.getD 0 none

/-- The `to` column entry of an edge row (`.str.get(1)` is NaN when the set
is a singleton). -/
def edgeTo (e : List (Option String)) : Option String := e.getD 1 none

/-- `generate_data(df, selected_topic="Life")` from utils.py.

The guard returns the null pair for a missing or empty query; a query whose
normalised form matches no topic also yields the null pair.  `.item()`
raises when several rows match.  Unpacking
`edges["from"], edges["to"] = df_graph.apply(list).str` succeeds exactly
when the column iterator yields two columns, i.e. when some edge set has two
elements; otherwise the call raises (in particular when the filtered frame
is empty). -/
def generate_data (df : List TopicRow)
    (selected_topic : Option String := some "Life") : GenResult :=
  match selected_topic with
  | none => .nullPair
  | some q =>
    if q = "" then .nullPair
    else
      match matchesFor df q with
      | [] => .nullPair
      | [T] =>
        let pairs := graphEdges df T q
        if pairs.any fun p => 2 ≤ p.length then
          .graph pairs (nodeTable df pairs)
        else .error
      | _ :: _ :: _ => .error

/-- One row of the ranked summary table: columns renamed to
Topics, Stories, Writers. -/
structure SummaryRow where
  Topics : String
  Stories : ℚ
  Writers : ℚ
deriving DecidableEq, Inhabited

/-- Ascending comparison on the Stories column, the key of
`sort_values("stories", ascending=False)`. -/
def summaryRel (a b : SummaryRow) : Prop := a.Stories ≤ b.Stories

instance : DecidableRel summaryRel :=
  fun a b => inferInstanceAs (Decidable (a.Stories ≤ b.Stories))

instance : IsTotal SummaryRow summaryRel := ⟨fun a b => le_total a.Stories b.Stories⟩

instance : IsTrans SummaryRow summaryRel := ⟨fun _ _ _ h h2 => le_trans h h2⟩

/-- `preprocess_data(df)` from utils.py.  The counter transform
`np.exp(...).round()` acts on floating point numbers, so it enters the
rational model as an abstract function `expRound` applied pointwise to the
stories and writers cells.  related_topics is dropped and the columns are
renamed by the `SummaryRow` fields.  `sort_values("stories",
ascending=False)` is the reverse of a stable ascending sort (see the header:
pandas reverses an ascending argsort). -/
def preprocess_data (expRound : ℚ → ℚ) (df : List TopicRow) : List SummaryRow :=
  (List.insertionSort summaryRel
    (df.map fun r => SummaryRow.mk r.topic (expRound r.stories) (expRound r.writers))).reverse

/-- A cell of a generic dataframe for `parse_data`: a string or a number.
(The nested colour mapping attached to every produced edge holds a single
fixed string, so it is carried as that string.) -/
inductive Value where
  | str (s : String)
  | num (q : ℚ)
deriving DecidableEq, Inhabited

/-- Decimal rendering of a rational, the model of Python `str` on a numeric
cell; integral values render as their integer digits. -/
def ratToString (q : ℚ) : String :=
  if q.den = 1 then toString q.num
  else toString q.num ++ "/" ++ toString q.den

/-- `str(value)`: strings are unchanged, numbers are rendered. -/
def Value.pyStr : Value → String
  | .str s => s
  | .num q => ratToString q

/-- A row of a generic dataframe, as the record `to_dict(orient="records")`
produces: column name to cell, in column order. -/
abbrev PyRow : Type := List (String × Value)

/-- A generic dataframe: its column names and its rows. -/
structure Frame where
  cols : List String
  rows : List PyRow
deriving DecidableEq, Inhabited

/-- `.astype(str)` assigned back onto the listed columns of one row; every
other cell is untouched. -/
def stringifyKeys (ks : List String) (r : PyRow) : PyRow :=
  r.map fun kv => if kv.1 ∈ ks then (kv.1, Value.str kv.2.pyStr) else kv

/-- `frame.loc[:, ks] = frame.loc[:, ks].astype(str)`: the in-place column
coercion, visible to the caller of `parse_data`. -/
def Frame.stringify (f : Frame) (ks : List String) : Frame :=
  ⟨f.cols, f.rows.map (stringifyKeys ks)⟩

/-- Reads one cell of a row (rows of a well-formed frame carry every
column; a missing key reads as the string a NaN prints as). -/
def getCell (r : PyRow) (k : String) : Value :=
  (r.lookup k).getD (Value.str "nan")

/-- Python dict merge `{**row, **extra}`: the keys of `row` keep their
order, with clashing values overridden by `extra`; new keys of `extra` are
appended. -/
def mergeRow (r extra : PyRow) : PyRow :=
  (r.map fun kv => ((extra.lookup kv.1).elim kv fun v => (kv.1, v))) ++
    extra.filter fun kv => (r.lookup kv.1).isNone

/-- The {min, max} pair recorded for one numeric column; pandas min/max of
an empty column is NaN, modelled as `none`. -/
structure Bounds where
  min : Option ℚ
  max : Option ℚ
deriving DecidableEq, Inhabited

/-- A column counts as numeric when every cell it holds is numeric: the
model of the dtype test `select_dtypes(include=numerics)`. -/
def isNumericCol (f : Frame) (c : String) : Bool :=
  (f.rows.filterMap fun r => r.lookup c).all fun v =>
    match v with
    | .num _ => true
    | .str _ => false

/-- The numeric cells of one column. -/
def numCells (f : Frame) (c : String) : List ℚ :=
  f.rows.filterMap fun r =>
    match r.lookup c with
    | some (.num q) => some q
    | _ => none

/-- `compute_scaling_vars_for_numerical_cols(df)` from utils.py: per numeric
column the observed {min, max}. -/
def compute_scaling_vars_for_numerical_cols (f : Frame) :
    List (String × Bounds) :=
  (f.cols.filter fun c => isNumericCol f c).map
    fun c => (c, ⟨(numCells f c).min?, (numCells f c).max?⟩)

/-- The `scaling_vars` dictionary returned by `parse_data`. -/
structure ScalingVars where
  node : Option (List (String × Bounds))
  edge : List (String × Bounds)
deriving DecidableEq, Inhabited

/-- Everything observable after a successful `parse_data` call: the visdcc
payload, the scaling variables, and the caller-visible final state of the
two input dataframes (parse_data mutates them in place). -/
structure ParseResult where
  payload_nodes : List PyRow
  payload_edges : List PyRow
  scaling_vars : ScalingVars
  edge_df : Frame
  node_df : Option Frame
deriving DecidableEq, Inhabited

/-- The visdcc entry of one edge row: the row merged with its derived id
`from + "__" + to` and the fixed display colour. -/
def edgeEntry (r : PyRow) : PyRow :=
  mergeRow r
    [("id", Value.str ((getCell r "from").pyStr ++ "__" ++ (getCell r "to").pyStr)),
     ("color", Value.str "#97C2FC")]

/-- `parse_data(edge_df, node_df=None)` from utils.py.  DEFAULT is the
DEFAULT_NODE_SIZE constant of config.py (modelled from the spec as a
parameter).  The two schema checks come first; after them the function is
total.  Following the code, the node scaling variables are computed before
the node id column is coerced to strings, while the edge scaling variables
are computed after the from/to coercion. -/
def parse_data (DEFAULT : ℚ) (edge_df : Frame)
    (node_df : Option Frame := none) : Except String ParseResult :=
  if "from" ∉ edge_df.cols ∨ "to" ∉ edge_df.cols then
    .error "Edge dataframe missing either from or to column."
  else
    match node_df with
    | some nd =>
      if "id" ∉ nd.cols then .error "Node dataframe missing id column."
      else
        let e1 := edge_df.stringify ["from", "to"]
        let svars : ScalingVars :=
          ⟨some (compute_scaling_vars_for_numerical_cols nd),
           compute_scaling_vars_for_numerical_cols e1⟩
        let nd1 := nd.stringify ["id"]
        let flag := "node_image_url" ∈ nd1.cols
        let nodes := nd1.rows.map fun r =>
          if flag then
            mergeRow r
              [("label", getCell r "id"), ("shape", Value.str "circularImage"),
               ("image", getCell r "node_image_url"), ("size", Value.num 20)]
          else
            mergeRow r
              [("label", getCell r "id"), ("shape", Value.str "dot"),
               ("size", Value.num DEFAULT)]
        .ok ⟨nodes, e1.rows.map edgeEntry, svars, e1, some nd1⟩
    | none =>
      let e1 := edge_df.stringify ["from", "to"]
      let svars : ScalingVars :=
        ⟨none, compute_scaling_vars_for_numerical_cols e1⟩
      let node_list := dropDupsFirst
        ((e1.rows.map fun r => getCell r "from") ++ (e1.rows.map fun r => getCell r "to"))
      let nodes := node_list.map fun v =>
        [("id", v), ("label", v), ("shape", Value.str "dot"),
         ("size", Value.num DEFAULT)]
      .ok ⟨nodes, e1.rows.map edgeEntry, svars, e1, none⟩

/-- A displayed graph node as `callback_size_nodes` sees it: its id, its
numeric attributes (the stories and writers counts carried through), and
its current size. -/
structure VisNode where
  id : String
  attrs : List (String × ℚ)
  size : ℚ
deriving DecidableEq, Inhabited

/-- Splits a character list at spaces; `acc` holds the (reversed) current
chunk. -/
def splitWordsAux : List Char → List Char → List String
  | [], acc => [String.mk acc.reverse]
  | c :: cs, acc =>
    if c = ' ' then String.mk acc.reverse :: splitWordsAux cs []
    else splitWordsAux cs (c :: acc)

/-- `size_topics_by.split()[-1]`: the last whitespace-separated word of the
dropdown label names the sizing attribute. -/
def lastWord (s : String) : String :=
  ((splitWordsAux s.data []).filter fun w => w ≠ "").getLastD ""

/-- The body of the sizing loop for one node.  The bounds lookup models
`scaling_vars["node"][method]`; a missing key raises.  When the bounds
coincide the computed scaling factor divides by zero, which raises (or
produces a non-finite float under numpy scalars); the model makes that an
error.  A node without the attribute raises a key error. -/
def sizeOne (MIN MAX : ℚ) (scaling : List (String × (ℚ × ℚ)))
    (method : String) (n : VisNode) : Except Unit VisNode :=
  match scaling.lookup method with
  | none => .error ()
  | some (mn, mx) =>
    if mx - mn = 0 then .error ()
    else
      match n.attrs.lookup method with
      | none => .error ()
      | some v => .ok { n with size := (v - mn) * ((MAX - MIN) / (mx - mn)) + MIN }

/-- The `for node in data["nodes"]` loop, stopping at the first raise. -/
def sizeAll (MIN MAX : ℚ) (scaling : List (String × (ℚ × ℚ)))
    (method : String) : List VisNode → Except Unit (List VisNode)
  | [] => .ok []
  | n :: rest =>
    match sizeOne MIN MAX scaling method n with
    | .error e => .error e
    | .ok n2 =>
      match sizeAll MIN MAX scaling method rest with
      | .error e => .error e
      | .ok l => .ok (n2 :: l)

/-- `callback_size_nodes(data, scaling_vars, size_topics_by)` from app.py.
MIN, MAX and DEFAULT are the MIN_NODE_SIZE, MAX_NODE_SIZE and
DEFAULT_NODE_SIZE constants of config.py (modelled from the spec as
parameters).  With no sizing method every node size is reset to DEFAULT;
with a method, every node is linearly remapped using the bounds stored for
the last word of the label. -/
def callback_size_nodes (MIN MAX DEFAULT : ℚ) (data : List VisNode)
    (scaling : List (String × (ℚ × ℚ))) (size_topics_by : Option String) :
    Except Unit (List VisNode) :=
  match size_topics_by with
  | some lbl => sizeAll MIN MAX scaling (lastWord lbl) data
  | none => .ok (data.map fun n => { n with size := DEFAULT })

theorem mem_dropDupsFirstAux {α : Type} [DecidableEq α] (l : List α) :
    ∀ (seen : List α) (a : α),
      a ∈ dropDupsFirstAux seen l ↔ a ∈ l ∧ a ∉ seen := by
  induction l with
  | nil => intro seen a; simp [dropDupsFirstAux]
  | cons b t ih =>
    intro seen a
    by_cases hb : b ∈ seen
    · rw [dropDupsFirstAux, if_pos hb, ih]
      constructor
      · rintro ⟨hat, has⟩; exact ⟨List.mem_cons_of_mem _ hat, has⟩
      · rintro ⟨hab, has⟩
        rcases List.mem_cons.mp hab with h | h
        · exact absurd (h ▸ hb) has
        · exact ⟨h, has⟩
    · rw [dropDupsFirstAux, if_neg hb]
      constructor
      · intro hmem
        rcases List.mem_cons.mp hmem with h | h
        · exact ⟨h ▸ List.mem_cons_self _ _, h ▸ hb⟩
        · rcases (ih _ _).mp h with ⟨hat, hns⟩
          refine ⟨List.mem_cons_of_mem _ hat, fun hc => hns ?_⟩
          exact List.mem_cons_of_mem _ hc
      · rintro ⟨hab, has⟩
        rcases List.mem_cons.mp hab with h | h
        · exact h ▸ List.mem_cons_self _ _
        · by_cases hba : a = b
          · exact hba ▸ List.mem_cons_self _ _
          · refine List.mem_cons_of_mem _ ((ih _ _).mpr ⟨h, ?_⟩)
            intro hc
            rcases List.mem_cons.mp hc with hc | hc
            · exact hba hc
            · exact has hc

theorem mem_dropDupsFirst {α : Type} [DecidableEq α] (l : List α) (a : α) :
    a ∈ dropDupsFirst l ↔ a ∈ l := by
  rw [dropDupsFirst, mem_dropDupsFirstAux]
  simp

theorem nodup_dropDupsFirstAux {α : Type} [DecidableEq α] (l : List α) :
    ∀ seen, (dropDupsFirstAux seen l).Nodup := by
  induction l with
  | nil => intro _; simp [dropDupsFirstAux]
  | cons b t ih =>
    intro seen
    by_cases hb : b ∈ seen
    · rw [dropDupsFirstAux, if_pos hb]; exact ih seen
    · rw [dropDupsFirstAux, if_neg hb, List.nodup_cons]
      refine ⟨fun hc => ?_, ih _⟩
      exact ((mem_dropDupsFirstAux _ _ _).mp hc).2 (List.mem_cons_self _ _)

theorem nodup_dropDupsFirst {α : Type} [DecidableEq α] (l : List α) :
    (dropDupsFirst l).Nodup :=
  nodup_dropDupsFirstAux l []

theorem mem_mkPair (t : String) (r : Option String) (x : String) :
    some x ∈ mkPair t r ↔ x = t ∨ some x = r := by
  rw [mkPair]
  split_ifs with h1 h2
  · subst h1
    simp
  · simp
  · simp [or_comm]

theorem length_mkPair (t : String) (r : Option String) (h : r ≠ some t) :
    (mkPair t r).length = 2 := by
  rw [mkPair, if_neg h]
  split_ifs <;> rfl

theorem edge_cols_mkPair (t : String) (r : Option String) (h : r ≠ some t) :
    (edgeFrom (mkPair t r) = some t ∨ edgeFrom (mkPair t r) = r) ∧
      (edgeTo (mkPair t r) = some t ∨ edgeTo (mkPair t r) = r) := by
  rw [mkPair, if_neg h]
  split_ifs
  · exact ⟨Or.inl rfl, Or.inr rfl⟩
  · exact ⟨Or.inr rfl, Or.inl rfl⟩

theorem explodeRow_shape (row : TopicRow) (p : List (Option String))
    (hp : p ∈ explodeRow row) :
    ∃ r2, p = mkPair row.topic r2 ∧
      ((r2 = none ∧ row.related_topics = []) ∨ ∃ x ∈ row.related_topics, r2 = some x) := by
  rw [explodeRow] at hp
  rcases hrel : row.related_topics with _ | ⟨y, ys⟩
  · rw [hrel] at hp
    simp only [List.mem_singleton] at hp
    exact ⟨none, hp, Or.inl ⟨rfl, rfl⟩⟩
  · rw [hrel] at hp
    rcases List.mem_map.mp hp with ⟨x, hx, hpx⟩
    exact ⟨some x, hpx.symm, Or.inr ⟨x, hrel ▸ hx, rfl⟩⟩

theorem explodeRow_values (row : TopicRow) (x : String) :
    (∃ p ∈ explodeRow row, some x ∈ p) ↔
      x = row.topic ∨ x ∈ row.related_topics := by
  constructor
  · rintro ⟨p, hp, hxp⟩
    rcases explodeRow_shape row p hp with ⟨r2, rfl, hcase⟩
    rcases (mem_mkPair _ _ _).mp hxp with h | h
    · exact Or.inl h
    · rcases hcase with ⟨rfl, _⟩ | ⟨y, hy, rfl⟩
      · cases h
      · exact Or.inr (Option.some_injective _ h ▸ hy)
  · intro hx
    rw [explodeRow]
    rcases hrel : row.related_topics with _ | ⟨y, ys⟩
    · rcases hx with h | h
      · exact ⟨mkPair row.topic none, List.mem_singleton_self _,
          (mem_mkPair _ _ _).mpr (Or.inl h)⟩
      · rw [hrel] at h; cases h
    · rcases hx with h | h
      · refine ⟨mkPair row.topic (some y), ?_, (mem_mkPair _ _ _).mpr (Or.inl h)⟩
        exact List.mem_map_of_mem _ (List.mem_cons_self _ _)
      · rw [hrel] at h
        refine ⟨mkPair row.topic (some x), List.mem_map_of_mem _ h,
          (mem_mkPair _ _ _).mpr (Or.inr rfl)⟩

theorem mem_rawPairs (df : List TopicRow) (T : TopicRow) (q : String)
    (p : List (Option String)) :
    p ∈ rawPairs df T q ↔ ∃ r ∈ egoFilter df T q, p ∈ explodeRow r := by
  rw [rawPairs]
  exact List.mem_flatMap

theorem flatten_graphEdges (df : List TopicRow) (T : TopicRow) (q : String)
    (a : Option String) :
    a ∈ (graphEdges df T q).flatten ↔ a ∈ (rawPairs df T q).flatten := by
  simp only [List.mem_flatten, graphEdges]
  constructor
  · rintro ⟨p, hp, hap⟩
    exact ⟨p, (mem_dropDupsFirst _ _).mp hp, hap⟩
  · rintro ⟨p, hp, hap⟩
    exact ⟨p, (mem_dropDupsFirst _ _).mpr hp, hap⟩

theorem mem_nodeTable (df : List TopicRow) (ps : List (List (Option String)))
    (x : String) :
    (∃ nr ∈ nodeTable df ps, nr.id = x) ↔
      x ∈ df.map TopicRow.topic ∧ some x ∈ ps.flatten := by
  constructor
  · rintro ⟨nr, hnr, hid⟩
    rcases List.mem_map.mp hnr with ⟨r, hr, hrow⟩
    rcases List.mem_filter.mp hr with ⟨hrdf, hpred⟩
    have hxr : r.topic = x := by rw [← hid, ← hrow]
    refine ⟨List.mem_map.mpr ⟨r, hrdf, hxr⟩, ?_⟩
    have := of_decide_eq_true hpred
    exact hxr ▸ this
  · rintro ⟨hx, hflat⟩
    rcases List.mem_map.mp hx with ⟨r, hr, hxr⟩
    refine ⟨⟨r.topic, r.stories, r.writers⟩, ?_, hxr⟩
    refine List.mem_map.mpr ⟨r, List.mem_filter.mpr ⟨hr, ?_⟩, rfl⟩
    exact decide_eq_true (hxr ▸ hflat)

theorem generate_data_graph_inv (df : List TopicRow) (q : String)
    (es : List (List (Option String))) (ns : List NodeRow)
    (h : generate_data df (some q) = .graph es ns) :
    ∃ T, matchesFor df q = [T] ∧ es = graphEdges df T q ∧
      ns = nodeTable df (graphEdges df T q) := by
  rw [generate_data] at h
  split_ifs at h
  rcases hm : matchesFor df q with _ | ⟨T, _ | ⟨T2, rest⟩⟩ <;> rw [hm] at h
  · cases h
  · simp only at h
    split_ifs at h
    rcases h with ⟨⟩
    exact ⟨T, rfl, rfl, rfl⟩
  · cases h

/-- Well-formedness used by the amended claims: every record names at least
one related topic, and only topics that are themselves records of the
dataset and differ from the record itself.  The spec data model does not
force this, which is exactly what the corrected claims record. -/
def ClosedDataset (df : List TopicRow) : Prop :=
  ∀ r ∈ df, r.related_topics ≠ [] ∧
    ∀ x ∈ r.related_topics, x ∈ df.map TopicRow.topic ∧ x ≠ r.topic

instance (df : List TopicRow) : Decidable (ClosedDataset df) := by
  unfold ClosedDataset
  infer_instance

theorem matches_single (df : List TopicRow) (q : String)
    (hpw : List.Pairwise (fun a b => cleanName a.topic ≠ cleanName b.topic) df)
    (hne : matchesFor df q ≠ []) : ∃ T, matchesFor df q = [T] := by
  induction df with
  | nil => exact absurd rfl hne
  | cons r t ih =>
    by_cases hr : cleanName r.topic = cleanName q
    · refine ⟨r, ?_⟩
      rw [matchesFor, List.filter_cons, if_pos (decide_eq_true hr)]
      have hnil : (t.filter fun s => cleanName s.topic = cleanName q) = [] := by
        rw [List.filter_eq_nil_iff]
        intro s hs hsq
        have hd := (List.pairwise_cons.mp hpw).1 s hs
        exact hd (hr.trans (of_decide_eq_true hsq).symm)
      rw [show (List.filter (fun s => decide (cleanName s.topic = cleanName q)) t) = [] from hnil]
    · have hne2 : matchesFor t q ≠ [] := by
        intro hnil
        apply hne
        rw [matchesFor, List.filter_cons, if_neg (by simpa using hr)]
        exact hnil
      rcases ih (List.pairwise_cons.mp hpw).2 hne2 with ⟨T, hT⟩
      refine ⟨T, ?_⟩
      rw [matchesFor, List.filter_cons, if_neg (by simpa using hr)]
      rw [matchesFor] at hT
      exact hT

theorem generate_data_success (df : List TopicRow) (q : String) (T : TopicRow)
    (hq : q ≠ "") (hm : matchesFor df q = [T]) (p : List (Option String))
    (hp : p ∈ rawPairs df T q) (hlen : 2 ≤ p.length) :
    ∃ es ns, generate_data df (some q) = .graph es ns := by
  have hpg : p ∈ graphEdges df T q := by
    rw [graphEdges]
    exact (mem_dropDupsFirst _ _).mpr hp
  have hany : ((graphEdges df T q).any fun p => 2 ≤ p.length) = true :=
    List.any_eq_true.mpr ⟨p, hpg, decide_eq_true hlen⟩
  refine ⟨graphEdges df T q, nodeTable df (graphEdges df T q), ?_⟩
  simp only [generate_data]
  rw [if_neg hq, hm]
  simp only [hany, if_true]

/-- C6: generate_data collapses duplicate undirected pairs to a single
edge; on the two-topic dataset Life/Writing with query "life" the result
has nodes Life and Writing and exactly one edge between them. -/
theorem c6_undirected_dedup :
    (∀ (df : List TopicRow) (q : String) (es : List (List (Option String)))
        (ns : List NodeRow), generate_data df (some q) = .graph es ns → es.Nodup) ∧
      generate_data [⟨"Life", 0, 0, ["Writing"]⟩, ⟨"Writing", 0, 0, ["Life"]⟩]
          (some "life") =
        .graph [[some "Life", some "Writing"]] [⟨"Life", 0, 0⟩, ⟨"Writing", 0, 0⟩] := by
  constructor
  · intro df q es ns h
    rcases generate_data_graph_inv df q es ns h with ⟨T, _, hes, _⟩
    rw [hes, graphEdges]
    exact nodup_dropDupsFirst _
  · decide

/-- Witness for C6: the deduplication theorem applied to the concrete
two-topic dataset of the claim. -/
theorem c6_witness :
    ([[some "Life", some "Writing"]] : List (List (Option String))).Nodup :=
  c6_undirected_dedup.1 [⟨"Life", 0, 0, ["Writing"]⟩, ⟨"Writing", 0, 0, ["Life"]⟩]
    "life" [[some "Life", some "Writing"]] [⟨"Life", 0, 0⟩, ⟨"Writing", 0, 0⟩]
    c6_undirected_dedup.2

/-- C9: the query parameter of generate_data defaults to the string
"Life", so the omitted-argument call builds the ego graph of Life (when a
unique normalised match named Life is present and Life does not relate to
itself), while an explicit None or empty query yields the null pair. -/
theorem c9_default_topic (df : List TopicRow) (T : TopicRow)
    (hm : matchesFor df "Life" = [T]) (ht : T.topic = "Life")
    (hrel : "Life" ∉ T.related_topics) :
    generate_data df = generate_data df (some "Life") ∧
      (∃ es ns, generate_data df = .graph es ns) ∧
      generate_data df none = .nullPair ∧
      generate_data df (some "") = .nullPair := by
  refine ⟨rfl, ?_, rfl, rfl⟩
  have hTdf : T ∈ df := by
    have : T ∈ matchesFor df "Life" := by rw [hm]; exact List.mem_singleton_self _
    exact List.mem_of_mem_filter this
  have hTego : T ∈ egoFilter df T "Life" := by
    rw [egoFilter]
    refine List.mem_filter.mpr ⟨hTdf, decide_eq_true ?_⟩
    exact List.mem_append.mpr (Or.inr (ht ▸ List.mem_singleton_self _))
  rcases hrelT : T.related_topics with _ | ⟨y, ys⟩
  · refine generate_data_success df "Life" T (by decide) hm
      (mkPair T.topic none) ?_ ?_
    · refine (mem_rawPairs df T "Life" _).mpr ⟨T, hTego, ?_⟩
      rw [explodeRow, hrelT]
      exact List.mem_singleton_self _
    · rw [length_mkPair _ _ (by simp)]
  · refine generate_data_success df "Life" T (by decide) hm
      (mkPair T.topic (some y)) ?_ ?_
    · refine (mem_rawPairs df T "Life" _).mpr ⟨T, hTego, ?_⟩
      rw [explodeRow, hrelT]
      exact List.mem_map_of_mem _ (List.mem_cons_self _ _)
    · have hy : y ∈ T.related_topics := hrelT ▸ List.mem_cons_self _ _
      have hyne : some y ≠ some T.topic := by
        intro hc
        have hyt : y = T.topic := Option.some_inj.mp hc
        apply hrel
        rw [← ht, ← hyt]
        exact hy
      rw [length_mkPair _ _ hyne]

/-- Witness for C9: the default-query theorem applied to a concrete
two-topic dataset containing Life. -/
theorem c9_witness :
    generate_data [⟨"Life", 0, 0, ["Writing"]⟩, ⟨"Writing", 0, 0, ["Life"]⟩] =
        generate_data [⟨"Life", 0, 0, ["Writing"]⟩, ⟨"Writing", 0, 0, ["Life"]⟩]
          (some "Life") ∧
      (∃ es ns,
        generate_data [⟨"Life", 0, 0, ["Writing"]⟩, ⟨"Writing", 0, 0, ["Life"]⟩] =
          .graph es ns) ∧
      generate_data [⟨"Life", 0, 0, ["Writing"]⟩, ⟨"Writing", 0, 0, ["Life"]⟩] none =
        .nullPair ∧
      generate_data [⟨"Life", 0, 0, ["Writing"]⟩, ⟨"Writing", 0, 0, ["Life"]⟩]
          (some "") = .nullPair :=
  c9_default_topic [⟨"Life", 0, 0, ["Writing"]⟩, ⟨"Writing", 0, 0, ["Life"]⟩]
    ⟨"Life", 0, 0, ["Writing"]⟩ (by decide) (by decide) (by decide)

/-- C7 (amended): preprocess_data applies the counter transform pointwise,
drops related_topics, renames the columns, returns as many rows as it was
given, and sorts them in descending order of the transformed stories
counter.  Ties are NOT broken by original dataset order: pandas sorts
descending by reversing an ascending argsort (see c7_counterexample). -/
theorem c7_preprocess_shape (expRound : ℚ → ℚ) (df : List TopicRow) :
    (preprocess_data expRound df).length = df.length ∧
      (preprocess_data expRound df).Perm
        (df.map fun r => SummaryRow.mk r.topic (expRound r.stories) (expRound r.writers)) ∧
      (preprocess_data expRound df).Sorted fun a b => b.Stories ≤ a.Stories := by
  have hperm : (preprocess_data expRound df).Perm
      (df.map fun r => SummaryRow.mk r.topic (expRound r.stories) (expRound r.writers)) := by
    rw [preprocess_data]
    exact (List.reverse_perm _).trans (List.perm_insertionSort _ _)
  refine ⟨?_, hperm, ?_⟩
  · rw [hperm.length_eq, List.length_map]
  · rw [preprocess_data, List.Sorted, List.pairwise_reverse]
    exact List.sorted_insertionSort summaryRel _

/-- Counterexample to C7 as stated: two records with equal (transformed)
stories counters come back in reversed dataset order, not original order.
The concrete transform stands for round(exp(x)), which maps both zero
counters to one; any transform gives the same tie. -/
theorem c7_counterexample :
    (preprocess_data (fun _ => 1) [⟨"A", 0, 0, []⟩, ⟨"B", 0, 0, []⟩]).map
        SummaryRow.Topics = ["B", "A"] ∧
      (["B", "A"] : List String) ≠ ["A", "B"] := by decide

/-- C4: the claim says the min == max degenerate case is guarded and maps
every node size to MIN_NODE_SIZE.  The code has no such guard: the scaling
factor divides by max - min, so zero-width bounds raise (integer bounds)
or produce a non-finite size (numpy float bounds), modelled as an error of
callback_size_nodes, never as a MIN_NODE_SIZE-sized node list. -/
theorem c4_zero_width_bounds_error :
    callback_size_nodes 10 50 25 [⟨"A", [("stories", 5)], 25⟩]
        [("stories", (5, 5))] (some "Number of stories") = .error () ∧
      ∀ out : List VisNode,
        callback_size_nodes 10 50 25 [⟨"A", [("stories", 5)], 25⟩]
          [("stories", (5, 5))] (some "Number of stories") ≠ .ok out := by
  have h : callback_size_nodes 10 50 25 [⟨"A", [("stories", 5)], 25⟩]
      [("stories", (5, 5))] (some "Number of stories") = .error () := by
    simp only [callback_size_nodes, sizeAll, sizeOne, List.lookup,
      show lastWord "Number of stories" = "stories" from by decide]
    norm_num
  refine ⟨h, fun out hc => ?_⟩
  rw [h] at hc
  cases hc

/-- Counterexample to C1 as stated: a dataset whose only record relates to
a topic absent from the dataset.  The edge table references Writing while
the node table has only Life, so an edge endpoint matches no node id. -/
theorem c1_counterexample :
    generate_data [⟨"Life", 0, 0, ["Writing"]⟩] (some "Life") =
        .graph [[some "Life", some "Writing"]] [⟨"Life", 0, 0⟩] ∧
      edgeTo [some "Life", some "Writing"] = some "Writing" ∧
      ∀ nr ∈ [(⟨"Life", 0, 0⟩ : NodeRow)], some nr.id ≠ some "Writing" := by
  decide

/-- C1 (amended): when every record of the dataset relates to at least one
other topic and only to topics present in the dataset, every from and to
cell of the produced edge table is the id of some row of the node table. -/
theorem c1_edge_endpoints_in_nodes (df : List TopicRow) (q : String)
    (es : List (List (Option String))) (ns : List NodeRow)
    (hW : ClosedDataset df) (h : generate_data df (some q) = .graph es ns) :
    ∀ e ∈ es, (∃ nr ∈ ns, some nr.id = edgeFrom e) ∧
      (∃ nr ∈ ns, some nr.id = edgeTo e) := by
  rcases generate_data_graph_inv df q es ns h with ⟨T, _, hes, hns⟩
  subst hes
  subst hns
  intro e he
  have heRaw : e ∈ rawPairs df T q := by
    rw [graphEdges] at he
    exact (mem_dropDupsFirst _ _).mp he
  rcases (mem_rawPairs df T q e).mp heRaw with ⟨r, hrEgo, heExp⟩
  have hrdf : r ∈ df := by
    rw [egoFilter] at hrEgo
    exact List.mem_of_mem_filter hrEgo
  rcases explodeRow_shape r e heExp with ⟨r2, rfl, hcase⟩
  rcases hW r hrdf with ⟨hne, hclosed⟩
  rcases hcase with ⟨_, hnil⟩ | ⟨x, hx, rfl⟩
  · exact absurd hnil hne
  rcases hclosed x hx with ⟨hxtop, hxne⟩
  have hx_ne : some x ≠ some r.topic := fun hc => hxne (Option.some_inj.mp hc)
  have hview := edge_cols_mkPair r.topic (some x) hx_ne
  have hmemT : some r.topic ∈ mkPair r.topic (some x) :=
    (mem_mkPair _ _ _).mpr (Or.inl rfl)
  have hmemX : some x ∈ mkPair r.topic (some x) :=
    (mem_mkPair _ _ _).mpr (Or.inr rfl)
  have hflatT : some r.topic ∈ (graphEdges df T q).flatten :=
    List.mem_flatten.mpr ⟨_, he, hmemT⟩
  have hflatX : some x ∈ (graphEdges df T q).flatten :=
    List.mem_flatten.mpr ⟨_, he, hmemX⟩
  have hTid : ∃ nr ∈ nodeTable df (graphEdges df T q), nr.id = r.topic :=
    (mem_nodeTable _ _ _).mpr ⟨List.mem_map.mpr ⟨r, hrdf, rfl⟩, hflatT⟩
  have hXid : ∃ nr ∈ nodeTable df (graphEdges df T q), nr.id = x :=
    (mem_nodeTable _ _ _).mpr ⟨hxtop, hflatX⟩
  constructor
  · rcases hview.1 with hf | hf
    · rcases hTid with ⟨nr, hnr, hid⟩
      exact ⟨nr, hnr, by rw [hid, hf]⟩
    · rcases hXid with ⟨nr, hnr, hid⟩
      exact ⟨nr, hnr, by rw [hid, hf]⟩
  · rcases hview.2 with hf | hf
    · rcases hTid with ⟨nr, hnr, hid⟩
      exact ⟨nr, hnr, by rw [hid, hf]⟩
    · rcases hXid with ⟨nr, hnr, hid⟩
      exact ⟨nr, hnr, by rw [hid, hf]⟩

/-- Witness for C1: the amended endpoint theorem applied to the closed
two-topic dataset. -/
theorem c1_witness :
    (∃ nr ∈ [(⟨"Life", 0, 0⟩ : NodeRow), ⟨"Writing", 0, 0⟩],
        some nr.id = edgeFrom [some "Life", some "Writing"]) ∧
      ∃ nr ∈ [(⟨"Life", 0, 0⟩ : NodeRow), ⟨"Writing", 0, 0⟩],
        some nr.id = edgeTo [some "Life", some "Writing"] :=
  c1_edge_endpoints_in_nodes
    [⟨"Life", 0, 0, ["Writing"]⟩, ⟨"Writing", 0, 0, ["Life"]⟩] "Life"
    [[some "Life", some "Writing"]] [⟨"Life", 0, 0⟩, ⟨"Writing", 0, 0⟩]
    (by decide) (by decide) [some "Life", some "Writing"] (by decide)

/-- Counterexample to C2 as stated: with query Life, whose related list is
only Writing, the node set also contains Poetry (a related topic of the
neighbour Writing), so it is strictly larger than the matched topic plus
its declared related topics. -/
theorem c2_counterexample :
    generate_data
        [⟨"Life", 0, 0, ["Writing"]⟩, ⟨"Writing", 0, 0, ["Poetry"]⟩,
          ⟨"Poetry", 0, 0, ["Writing"]⟩] (some "Life") =
      .graph [[some "Life", some "Writing"], [some "Poetry", some "Writing"]]
        [⟨"Life", 0, 0⟩, ⟨"Writing", 0, 0⟩, ⟨"Poetry", 0, 0⟩] ∧
      (∃ nr ∈ [⟨"Life", 0, 0⟩, ⟨"Writing", 0, 0⟩, (⟨"Poetry", 0, 0⟩ : NodeRow)],
        nr.id = "Poetry") ∧
      ¬ ("Poetry" = "Life" ∨ "Poetry" ∈ ["Writing"]) := by
  decide

/-- C2 (amended): the node set consists of exactly the dataset topics that
occur in some exploded pair of a row whose topic lies in the related list
of the matched topic T or equals the raw query; when the query equals the
name of T literally this set contains T and every related topic of T that
is present in the dataset, but it can be strictly larger. -/
theorem c2_node_set_characterization (df : List TopicRow) (q : String)
    (es : List (List (Option String))) (ns : List NodeRow) (T : TopicRow)
    (hm : matchesFor df q = [T])
    (h : generate_data df (some q) = .graph es ns) :
    (∀ x : String,
        (∃ nr ∈ ns, nr.id = x) ↔
          x ∈ df.map TopicRow.topic ∧
            ∃ r ∈ df, r.topic ∈ T.related_topics ++ [q] ∧
              (x = r.topic ∨ x ∈ r.related_topics)) ∧
      (q = T.topic →
        (∃ nr ∈ ns, nr.id = T.topic) ∧
          ∀ y ∈ T.related_topics, y ∈ df.map TopicRow.topic →
            ∃ nr ∈ ns, nr.id = y) := by
  rcases generate_data_graph_inv df q es ns h with ⟨T2, hm2, hes, hns⟩
  have hTT : T2 = T := by
    rw [hm] at hm2
    exact (List.cons.injEq _ _ _ _).mp hm2.symm |>.1
  rw [hTT] at hes hns
  subst hes
  subst hns
  have hTdf : T ∈ df := by
    have : T ∈ matchesFor df q := by rw [hm]; exact List.mem_singleton_self _
    exact List.mem_of_mem_filter this
  have hchar : ∀ x : String,
      (∃ nr ∈ nodeTable df (graphEdges df T q), nr.id = x) ↔
        x ∈ df.map TopicRow.topic ∧
          ∃ r ∈ df, r.topic ∈ T.related_topics ++ [q] ∧
            (x = r.topic ∨ x ∈ r.related_topics) := by
    intro x
    rw [mem_nodeTable, flatten_graphEdges]
    constructor
    · rintro ⟨hxtop, hflat⟩
      rcases List.mem_flatten.mp hflat with ⟨p, hp, hxp⟩
      rcases (mem_rawPairs df T q p).mp hp with ⟨r, hrEgo, hpExp⟩
      rw [egoFilter] at hrEgo
      rcases List.mem_filter.mp hrEgo with ⟨hrdf, hpred⟩
      refine ⟨hxtop, r, hrdf, of_decide_eq_true hpred, ?_⟩
      exact (explodeRow_values r x).mp ⟨p, hpExp, hxp⟩
    · rintro ⟨hxtop, r, hrdf, hrin, hxval⟩
      refine ⟨hxtop, ?_⟩
      rcases (explodeRow_values r x).mpr hxval with ⟨p, hpExp, hxp⟩
      refine List.mem_flatten.mpr ⟨p, ?_, hxp⟩
      refine (mem_rawPairs df T q p).mpr ⟨r, ?_, hpExp⟩
      rw [egoFilter]
      exact List.mem_filter.mpr ⟨hrdf, decide_eq_true hrin⟩
  refine ⟨hchar, fun hqT => ⟨?_, fun y hy hytop => ?_⟩⟩
  · refine (hchar T.topic).mpr ⟨List.mem_map.mpr ⟨T, hTdf, rfl⟩, T, hTdf, ?_, Or.inl rfl⟩
    exact List.mem_append.mpr (Or.inr (by rw [hqT]; exact List.mem_singleton_self _))
  · refine (hchar y).mpr ⟨hytop, T, hTdf, ?_, Or.inr hy⟩
    exact List.mem_append.mpr (Or.inr (by rw [hqT]; exact List.mem_singleton_self _))

/-- Witness for C2: the characterisation applied to the two-topic dataset
with the literal query Life; the matched topic is a node id. -/
theorem c2_witness :
    ∃ nr ∈ [(⟨"Life", 0, 0⟩ : NodeRow), ⟨"Writing", 0, 0⟩], nr.id = "Life" :=
  ((c2_node_set_characterization
      [⟨"Life", 0, 0, ["Writing"]⟩, ⟨"Writing", 0, 0, ["Life"]⟩] "Life"
      [[some "Life", some "Writing"]] [⟨"Life", 0, 0⟩, ⟨"Writing", 0, 0⟩]
      ⟨"Life", 0, 0, ["Writing"]⟩ (by decide) (by decide)).2 rfl).1

/-- Counterexample to C3 as stated: the dataset holding a single record
Life with no related topics is well formed for the spec data model, and
the query "life" matches it after normalisation, yet the code raises
instead of returning a non-null pair: the raw query "life" differs from
the stored name "Life", the isin filter selects no row, and unpacking the
two edge columns of the empty frame fails. -/
theorem c3_counterexample :
    generate_data [⟨"Life", 0, 0, []⟩] (some "life") = .error ∧
      matchesFor [⟨"Life", 0, 0, []⟩] "life" ≠ [] ∧ ("life" : String) ≠ "" := by
  decide

/-- C3 (amended): the null pair is returned exactly for a missing or empty
query or a query matching no topic; every other query yields non-null
outputs provided the dataset is closed with nonempty related lists and has
pairwise distinct normalised names (without that proviso the call can
raise instead, see c3_counterexample). -/
theorem c3_null_signals (df : List TopicRow) (q : String) :
    generate_data df none = .nullPair ∧
      generate_data df (some "") = .nullPair ∧
      (q ≠ "" → (generate_data df (some q) = .nullPair ↔ matchesFor df q = [])) ∧
      (q ≠ "" → ClosedDataset df →
        List.Pairwise (fun a b => cleanName a.topic ≠ cleanName b.topic) df →
        matchesFor df q ≠ [] →
        ∃ es ns, generate_data df (some q) = .graph es ns) := by
  refine ⟨rfl, rfl, fun hq => ⟨?_, ?_⟩, fun hq hW hpw hne => ?_⟩
  · intro hnull
    simp only [generate_data] at hnull
    rw [if_neg hq] at hnull
    by_cases hmm : matchesFor df q = []
    · exact hmm
    · exfalso
      rcases hcase : matchesFor df q with _ | ⟨T, _ | ⟨T2, rest⟩⟩
      · exact hmm hcase
      · rw [hcase] at hnull
        simp only at hnull
        split at hnull <;> cases hnull
      · rw [hcase] at hnull
        cases hnull
  · intro hmm
    simp only [generate_data]
    rw [if_neg hq, hmm]
  · rcases matches_single df q hpw hne with ⟨T, hm⟩
    have hTdf : T ∈ df := by
      have : T ∈ matchesFor df q := by rw [hm]; exact List.mem_singleton_self _
      exact List.mem_of_mem_filter this
    rcases hW T hTdf with ⟨hTne, hTclosed⟩
    rcases hrelT : T.related_topics with _ | ⟨y, ys⟩
    · exact absurd hrelT hTne
    have hy : y ∈ T.related_topics := hrelT ▸ List.mem_cons_self _ _
    rcases hTclosed y hy with ⟨hytop, _⟩
    rcases List.mem_map.mp hytop with ⟨R1, hR1df, hR1top⟩
    have hR1ego : R1 ∈ egoFilter df T q := by
      rw [egoFilter]
      refine List.mem_filter.mpr ⟨hR1df, decide_eq_true ?_⟩
      exact List.mem_append.mpr (Or.inl (hR1top ▸ hy))
    rcases hW R1 hR1df with ⟨hR1ne, hR1closed⟩
    rcases hrelR : R1.related_topics with _ | ⟨z, zs⟩
    · exact absurd hrelR hR1ne
    have hz : z ∈ R1.related_topics := hrelR ▸ List.mem_cons_self _ _
    rcases hR1closed z hz with ⟨_, hzne⟩
    refine generate_data_success df q T hq hm (mkPair R1.topic (some z)) ?_ ?_
    · refine (mem_rawPairs df T q _).mpr ⟨R1, hR1ego, ?_⟩
      rw [explodeRow, hrelR]
      exact List.mem_map_of_mem _ (List.mem_cons_self _ _)
    · rw [length_mkPair _ _ fun hc => hzne (Option.some_inj.mp hc)]

/-- Witness for C3: the null-signal theorem applied to the closed
two-topic dataset with the query "life". -/
theorem c3_witness :
    ∃ es ns,
      generate_data [⟨"Life", 0, 0, ["Writing"]⟩, ⟨"Writing", 0, 0, ["Life"]⟩]
        (some "life") = .graph es ns :=
  (c3_null_signals [⟨"Life", 0, 0, ["Writing"]⟩, ⟨"Writing", 0, 0, ["Life"]⟩]
      "life").2.2.2 (by decide) (by decide) (by decide) (by decide)

theorem sizeAll_ok (MIN MAX : ℚ) (scaling : List (String × (ℚ × ℚ)))
    (method : String) (mn mx : ℚ)
    (hsc : scaling.lookup method = some (mn, mx)) (hz : mx - mn ≠ 0) :
    ∀ data : List VisNode, (∀ n ∈ data, (n.attrs.lookup method).isSome) →
      sizeAll MIN MAX scaling method data =
        .ok (data.map fun n =>
          { n with size :=
              ((n.attrs.lookup method).getD 0 - mn) * ((MAX - MIN) / (mx - mn)) + MIN }) := by
  intro data
  induction data with
  | nil => intro _; rfl
  | cons n rest ih =>
    intro hattrs
    have hn := hattrs n (List.mem_cons_self _ _)
    rcases hv : n.attrs.lookup method with _ | v
    · rw [hv] at hn
      cases hn
    · have ih2 := ih fun m hm => hattrs m (List.mem_cons_of_mem _ hm)
      rw [sizeAll, sizeOne, hsc]
      simp only [if_neg hz, hv, ih2]
      simp [hv]

/-- C5: with a sizing method selected and genuine bounds min < max,
callback_size_nodes remaps every node size linearly as
(value - min) * (MAX - MIN) / (max - min) + MIN; for bounds 0 and 10 with
MIN 10 and MAX 50 a node valued 5 gets size 30; with no method every node
size becomes DEFAULT_NODE_SIZE. -/
theorem c5_linear_rescaling :
    (∀ (MIN MAX DEFAULT : ℚ) (data : List VisNode)
        (scaling : List (String × (ℚ × ℚ))) (lbl : String) (mn mx : ℚ),
        scaling.lookup (lastWord lbl) = some (mn, mx) → mn < mx →
        (∀ n ∈ data, (n.attrs.lookup (lastWord lbl)).isSome) →
        callback_size_nodes MIN MAX DEFAULT data scaling (some lbl) =
          .ok (data.map fun n =>
            { n with size :=
                ((n.attrs.lookup (lastWord lbl)).getD 0 - mn) * (MAX - MIN) / (mx - mn)
                  + MIN })) ∧
      (∀ (MIN MAX DEFAULT : ℚ) (data : List VisNode)
          (scaling : List (String × (ℚ × ℚ))),
        callback_size_nodes MIN MAX DEFAULT data scaling none =
          .ok (data.map fun n => { n with size := DEFAULT })) ∧
      callback_size_nodes 10 50 25 [⟨"A", [("stories", 5)], 25⟩]
          [("stories", (0, 10))] (some "Number of stories") =
        .ok [⟨"A", [("stories", 5)], 30⟩] := by
  refine ⟨?_, fun _ _ _ _ _ => rfl, ?_⟩
  · intro MIN MAX DEFAULT data scaling lbl mn mx hsc hlt hattrs
    have hz : mx - mn ≠ 0 := sub_ne_zero.mpr (ne_of_gt hlt)
    rw [callback_size_nodes, sizeAll_ok MIN MAX scaling (lastWord lbl) mn mx hsc hz data hattrs]
    simp only [mul_div_assoc]
  · simp only [callback_size_nodes, sizeAll, sizeOne, List.lookup,
      show lastWord "Number of stories" = "stories" from by decide]
    norm_num

/-- Witness for C5: the rescaling theorem applied to one concrete node
with the writers attribute. -/
theorem c5_witness :
    callback_size_nodes 10 50 25 [⟨"B", [("writers", 3)], 1⟩]
        [("writers", (1, 5))] (some "Number of writers") =
      .ok [⟨"B", [("writers", 3)], 30⟩] := by
  have h := c5_linear_rescaling.1 10 50 25 [⟨"B", [("writers", 3)], 1⟩]
    [("writers", (1, 5))] "Number of writers" 1 5 (by decide) (by norm_num)
    (by decide)
  rw [h]
  simp only [List.map, show lastWord "Number of writers" = "writers" from by decide,
    List.lookup]
  norm_num

/-- C8: parse_data fails exactly when the edge frame lacks a from or to
column, or a node frame is supplied lacking an id column; on well-formed
frames it never raises. -/
theorem c8_schema_error_iff (DEFAULT : ℚ) (edge_df : Frame)
    (node_df : Option Frame) :
    (∃ msg, parse_data DEFAULT edge_df node_df = .error msg) ↔
      ("from" ∉ edge_df.cols ∨ "to" ∉ edge_df.cols ∨
        ∃ nd, node_df = some nd ∧ "id" ∉ nd.cols) := by
  rw [parse_data.eq_def]
  by_cases h1 : "from" ∉ edge_df.cols ∨ "to" ∉ edge_df.cols
  · rw [if_pos h1]
    constructor
    · intro _
      rcases h1 with h | h
      · exact Or.inl h
      · exact Or.inr (Or.inl h)
    · intro _
      exact ⟨"Edge dataframe missing either from or to column.", rfl⟩
  · rw [if_neg h1]
    push_neg at h1
    cases node_df with
    | none =>
      constructor
      · rintro ⟨msg, hmsg⟩
        cases hmsg
      · rintro (h | h | ⟨nd, hnd, _⟩)
        · exact absurd h1.1 h
        · exact absurd h1.2 h
        · cases hnd
    | some nd =>
      by_cases h2 : "id" ∉ nd.cols
      · simp only [if_pos h2]
        constructor
        · intro _
          exact Or.inr (Or.inr ⟨nd, rfl, h2⟩)
        · intro _
          exact ⟨"Node dataframe missing id column.", rfl⟩
      · simp only [if_neg h2]
        constructor
        · rintro ⟨msg, hmsg⟩
          cases hmsg
        · rintro (h | h | ⟨nd2, hnd2, hid⟩)
          · exact absurd h1.1 h
          · exact absurd h1.2 h
          · rcases Option.some_inj.mp hnd2 with rfl
            exact absurd hid h2

/-- C10: parse_data coerces the from and to columns of the edge frame and
the id column of a supplied node frame to strings in place, so the caller
sees those columns changed after the call while every other column is
untouched.  The final frames a caller observes are returned in the
ParseResult; the third and fourth conjuncts state that the coercion leaves
cells of other columns exactly as they were and turns cells of the listed
columns into their string rendering. -/
theorem c10_inplace_string_coercion (DEFAULT : ℚ) (e nd : Frame)
    (res : ParseResult) (h : parse_data DEFAULT e (some nd) = .ok res) :
    res.edge_df = e.stringify ["from", "to"] ∧
      res.node_df = some (nd.stringify ["id"]) ∧
      (∀ (ks : List String) (r : PyRow) (kv : String × Value),
          kv ∈ r → kv.1 ∉ ks → kv ∈ stringifyKeys ks r) ∧
      (∀ (ks : List String) (r : PyRow) (k : String) (v : Value),
          (k, v) ∈ r → k ∈ ks → (k, Value.str v.pyStr) ∈ stringifyKeys ks r) := by
  rw [parse_data.eq_def] at h
  by_cases h1 : "from" ∉ e.cols ∨ "to" ∉ e.cols
  · rw [if_pos h1] at h
    cases h
  · rw [if_neg h1] at h
    by_cases h2 : "id" ∉ nd.cols
    · simp only [if_pos h2] at h
      cases h
    · simp only [if_neg h2] at h
      cases h
      refine ⟨rfl, rfl, ?_, ?_⟩
      · intro ks r kv hkv hnot
        simp only [stringifyKeys]
        refine List.mem_map.mpr ⟨kv, hkv, ?_⟩
        rw [if_neg hnot]
      · intro ks r k v hkv hk
        simp only [stringifyKeys]
        refine List.mem_map.mpr ⟨(k, v), hkv, ?_⟩
        rw [if_pos hk]

/-- Concrete edge frame for the C10 witness, with a numeric from cell. -/
def c10edgeC : Frame :=
  ⟨["from", "to"], [[("from", Value.num 1), ("to", Value.str "B")]]⟩

/-- Concrete node frame for the C10 witness, with a numeric id cell. -/
def c10nodeC : Frame :=
  ⟨["id", "stories"], [[("id", Value.num 7), ("stories", Value.num 2)]]⟩

/-- The ParseResult the C10 witness call produces. -/
def c10resC : ParseResult :=
  (parse_data 1 c10edgeC (some c10nodeC)).toOption.getD default

/-- Witness for C10: on the concrete frames the caller-visible edge and
node frames come back with from/to and id stringified, hence changed. -/
theorem c10_witness :
    (c10resC.edge_df = c10edgeC.stringify ["from", "to"] ∧
        c10resC.node_df = some (c10nodeC.stringify ["id"])) ∧
      c10resC.edge_df ≠ c10edgeC ∧ c10resC.node_df ≠ some c10nodeC := by
  have h := c10_inplace_string_coercion 1 c10edgeC c10nodeC c10resC (by rfl)
  exact ⟨⟨h.1, h.2.1⟩, by decide, by decide⟩
